import Mathlib

/-!
Verification development for the Rust boringssl binding layer
(`bssl`, `bssl-crypto`, `mls-rs-crypto-boringssl` crates).

The development embeds two layers:

* the HPKE layer of `bssl-crypto/src/hpke.rs`.  In the source every
  constructor and the seal/open bodies are `unimplemented!()` stubs (only the
  struct shapes, `SenderContext::seal`'s delegation and the
  `encapsulated_key` getter are real code), so the behaviour of those
  operations is modelled from the specification document (sections 4.2-4.4,
  6, 7), and each such definition is marked `Modelled from the spec:`;

* the HMAC / pkey binding code of `bssl/src/hmac.rs`, `bssl/src/lib.rs` and
  `bssl-crypto/src/pkey.rs`, which is real code and is embedded directly.
  Calls into the native library are represented by explicit parameters
  carrying the value the native call returned, and a panic is represented
  by `Option.none`.
-/

/-- Byte strings are lists of naturals; each entry stands for one byte. -/
abbrev Bytes := List Nat

/-- Big-endian encoding of `n` into exactly `w` bytes (zero padded on the
left, truncated modulo `256 ^ w`). -/
def beBytes : Nat → Nat → Bytes
  | 0, _ => []
  | w + 1, n => beBytes w (n / 256) ++ [n % 256]

/-- Big-endian value of a byte string. -/
def beVal (bs : Bytes) : Nat := bs.foldl (fun acc b => acc * 256 + b) 0

/-- Bytewise XOR of two byte strings (truncates to the shorter). -/
def xorBytes (a b : Bytes) : Bytes := List.zipWith (· ^^^ ·) a b

theorem beBytes_length (w n : Nat) : (beBytes w n).length = w := by
  induction w generalizing n with
  | zero => rfl
  | succ w ih => simp [beBytes, ih]

theorem beVal_append_single (bs : Bytes) (b : Nat) :
    beVal (bs ++ [b]) = beVal bs * 256 + b := by
  simp [beVal, List.foldl_append]

theorem beVal_beBytes (w n : Nat) : beVal (beBytes w n) = n % 256 ^ w := by
  induction w generalizing n with
  | zero => simp [beBytes, beVal, Nat.mod_one]
  | succ w ih =>
    rw [beBytes, beVal_append_single, ih]
    have h1 : n % 256 ^ (w + 1) % 256 = n % 256 := by
      rw [pow_succ']
      exact Nat.mod_mod_of_dvd n ⟨256 ^ w, rfl⟩
    have h2 : n % 256 ^ (w + 1) / 256 = n / 256 % 256 ^ w := by
      rw [pow_succ']
      exact Nat.mod_mul_right_div_self n 256 (256 ^ w)
    have h3 := Nat.div_add_mod (n % 256 ^ (w + 1)) 256
    omega

theorem beBytes_injOn (w i j : Nat) (hi : i < 256 ^ w) (hj : j < 256 ^ w)
    (h : beBytes w i = beBytes w j) : i = j := by
  have := congrArg beVal h
  rwa [beVal_beBytes, beVal_beBytes, Nat.mod_eq_of_lt hi, Nat.mod_eq_of_lt hj] at this

theorem xorBytes_inj (bn : Bytes) :
    ∀ x y : Bytes, x.length = bn.length → y.length = bn.length →
      xorBytes bn x = xorBytes bn y → x = y := by
  induction bn with
  | nil =>
    intro x y hx hy _
    cases x <;> cases y <;> simp_all
  | cons b bs ih =>
    intro x y hx hy h
    cases x with
    | nil => simp at hx
    | cons hx0 xs =>
      cases y with
      | nil => simp at hy
      | cons hy0 ys =>
        simp only [xorBytes, List.zipWith_cons_cons, List.cons.injEq] at h
        have head : hx0 = hy0 := by
          have h' := congrArg (fun t => b ^^^ t) h.1
          simp only at h'
          rwa [Nat.xor_cancel_left, Nat.xor_cancel_left] at h'
        have tail : xs = ys := by
          apply ih xs ys
          · simpa using hx
          · simpa using hy
          · exact h.2
        rw [head, tail]

/-! ## HPKE algorithm identifiers (`bssl-crypto/src/hpke.rs`)

The source defines exactly one supported identifier per algorithm class,
re-exporting the native registry values. -/

/-- `KEM_X25519_HKDF_SHA256`: the registry value of
`EVP_HPKE_DHKEM_X25519_HKDF_SHA256` (0x0020). -/
def KEM_X25519_HKDF_SHA256 : Nat := 0x0020

/-- `KDF_HKDF_SHA256`: the registry value of `EVP_HPKE_HKDF_SHA256` (0x0001). -/
def KDF_HKDF_SHA256 : Nat := 0x0001

/-- `AEAD_AES_128_GCM`: the registry value of `EVP_HPKE_AES_128_GCM` (0x0001). -/
def AEAD_AES_128_GCM : Nat := 0x0001

/-- Modelled from the spec: the error taxonomy of section 7.  The source's
`HpkeError` is a fieldless struct and every HPKE body is an
`unimplemented!()` stub, so the error kinds are taken from the spec's
taxonomy ("kinds, not type names"). -/
inductive HpkeError where
  | unsupportedAlgorithm
  | invalidPublicKey
  | invalidEncapsulatedKey
  | sequenceOverflow
  | openFailure
  deriving DecidableEq, Repr

/-- Modelled from the spec: the external collaborator interfaces of
section 6 (`ecdh`, KDF extract/expand, `aead_seal`, `aead_open`) together
with the per-suite constants (nonce width, key width, encapsulated-key
width).  The spec directs that all of these be treated as black boxes, so
the HPKE model is parameterised by this record.  `pubOf` derives the public
key of a private key (used for the ephemeral key pair the KEM generates;
the ephemeral private key is passed explicitly in place of the platform
randomness). -/
structure Primitives where
  pubOf : Bytes → Bytes
  ecdh : Bytes → Bytes → Option Bytes
  kdfExtract : Bytes → Bytes → Bytes
  kdfExpand : Bytes → Bytes → Nat → Bytes
  aeadSeal : Bytes → Bytes → Bytes → Bytes → Bytes
  aeadOpen : Bytes → Bytes → Bytes → Bytes → Option Bytes
  keyLen : Nat
  nonceLen : Nat
  encLen : Nat

/-- Modelled from the spec: the AEAD's maximum safe message count for its
nonce width (section 4.4); with a `w`-byte nonce, `256 ^ w - 1` messages
may be sealed before the counter is exhausted. -/
def maxMessages (P : Primitives) : Nat := 256 ^ P.nonceLen - 1

/-- Modelled from the spec: domain-separation label for the KEM's shared
secret derivation (the exact label strings are left open by the spec;
distinct fixed labels are used). -/
def labelKem : Bytes := [101, 97, 101]

/-- Modelled from the spec: label for deriving the key-schedule `secret`. -/
def labelSecret : Bytes := [115, 101, 99, 114, 101, 116]

/-- Modelled from the spec: label for expanding the AEAD key. -/
def labelKey : Bytes := [107, 101, 121]

/-- Modelled from the spec: label for expanding the base nonce. -/
def labelBaseNonce : Bytes := [98, 97, 115, 101, 95, 110, 111, 110, 99, 101]

/-- Modelled from the spec: the KEM shared-secret derivation of section 4.2,
"derives `shared_secret` via the KDF over
`(ephemeral_public || recipient_public || ecdh_output)` mixed with `info`
as domain-separation context". -/
def kemSharedSecret (P : Primitives) (dhInput info : Bytes) : Bytes :=
  P.kdfExtract (labelKem ++ info) dhInput

/-- Modelled from the spec: KEM encapsulation (section 4.2); the body of
`SenderContext::new`'s KEM step is an `unimplemented!()` stub.  `ephPriv`
is the ephemeral private key standing in for the platform randomness.
Returns `(shared_secret, encapsulated_key)`. -/
def encapsulate (P : Primitives) (ephPriv recipientPubKey info : Bytes) :
    Except HpkeError (Bytes × Bytes) :=
  let ephPub := P.pubOf ephPriv
  match P.ecdh ephPriv recipientPubKey with
  | none => .error .invalidPublicKey
  | some dh =>
      .ok (kemSharedSecret P (ephPub ++ recipientPubKey ++ dh) info, ephPub)

/-- Modelled from the spec: KEM decapsulation (section 4.2); the body of
`RecipientContext::new`'s KEM step is an `unimplemented!()` stub.  The
encapsulated key is validated against the KEM's exact length before any
cryptographic operation (section 6), then treated as the peer ephemeral
public key. -/
def decapsulate (P : Primitives) (recipientPrivKey enc info : Bytes) :
    Except HpkeError Bytes :=
  if enc.length ≠ P.encLen then .error .invalidEncapsulatedKey
  else
    match P.ecdh recipientPrivKey enc with
    | none => .error .invalidEncapsulatedKey
    | some dh =>
        .ok (kemSharedSecret P (enc ++ P.pubOf recipientPrivKey ++ dh) info)

/-- The derived key-schedule state (spec section 3, `KeySchedule`): AEAD
key, base nonce, and the monotone sequence counter starting at 0.  In the
source this state lives behind the native `EVP_HPKE_CTX` pointer held by
`RecipientContext`. -/
structure KeySchedule where
  key : Bytes
  base_nonce : Bytes
  seq : Nat
  deriving DecidableEq, Repr

/-- Modelled from the spec: key-schedule derivation (section 4.3) — a
domain-separated `secret` via extract, then labelled expansions into the
AEAD key and the base nonce.  Deterministic, identical on both sides. -/
def keySchedule (P : Primitives) (sharedSecret info : Bytes) : KeySchedule :=
  let secret := P.kdfExtract (labelSecret ++ info) sharedSecret
  { key := P.kdfExpand secret (labelKey ++ info) P.keyLen
    base_nonce := P.kdfExpand secret (labelBaseNonce ++ info) P.nonceLen
    seq := 0 }

/-- Modelled from the spec: the per-message nonce,
`base_nonce XOR sequence_counter` with the counter encoded big-endian and
zero-padded to the AEAD's nonce width (sections 4.4 and 6). -/
def computeNonce (P : Primitives) (base_nonce : Bytes) (seq : Nat) : Bytes :=
  xorBytes base_nonce (beBytes P.nonceLen seq)

/-- Modelled from the spec: `seal` on a key-schedule state (section 4.4).
The overflow check happens before the nonce is derived; on success the
counter is incremented by one.  The pair returns the operation result and
the (possibly updated) state. -/
def KeySchedule.seal (P : Primitives) (c : KeySchedule) (pt aad : Bytes) :
    Except HpkeError Bytes × KeySchedule :=
  if maxMessages P ≤ c.seq then (.error .sequenceOverflow, c)
  else
    (.ok (P.aeadSeal c.key (computeNonce P c.base_nonce c.seq) aad pt),
     { c with seq := c.seq + 1 })

/-- Modelled from the spec: `open` on a key-schedule state (section 4.4).
Same nonce derivation from the context's own counter; on authentication
failure returns `OpenFailure` without advancing the counter. -/
def KeySchedule.«open» (P : Primitives) (c : KeySchedule) (ct aad : Bytes) :
    Except HpkeError Bytes × KeySchedule :=
  if maxMessages P ≤ c.seq then (.error .sequenceOverflow, c)
  else
    match P.aeadOpen c.key (computeNonce P c.base_nonce c.seq) aad ct with
    | none => (.error .openFailure, c)
    | some pt => (.ok pt, { c with seq := c.seq + 1 })

/-- `Params` (`bssl-crypto/src/hpke.rs`): the immutable suite triple.  The
source stores pointers to the selected native algorithm objects; the model
stores the identifiers that selected them. -/
structure Params where
  kem : Nat
  kdf : Nat
  aead : Nat
  deriving DecidableEq, Repr

/-- Modelled from the spec: `Params::new` (section 4.1); the source body is
an `unimplemented!()` stub.  Validates that each identifier maps to a
supported concrete algorithm (the source registry exposes exactly
`KEM_X25519_HKDF_SHA256`, `KDF_HKDF_SHA256`, `AEAD_AES_128_GCM`); fails
with `UnsupportedAlgorithm` otherwise.  Pure by construction. -/
def Params.new (kem kdf aead : Nat) : Except HpkeError Params :=
  if kem = KEM_X25519_HKDF_SHA256 ∧ kdf = KDF_HKDF_SHA256 ∧ aead = AEAD_AES_128_GCM
  then .ok { kem := kem, kdf := kdf, aead := aead }
  else .error .unsupportedAlgorithm

/-- `RecipientContext` (`bssl-crypto/src/hpke.rs`): wraps the native
`EVP_HPKE_CTX`, modelled by the key-schedule state it holds. -/
structure RecipientContext where
  ctx : KeySchedule
  deriving DecidableEq, Repr

/-- `SenderContext` (`bssl-crypto/src/hpke.rs`): a recipient-shaped context
plus the encapsulated key produced at construction, exactly the source's
two fields. -/
structure SenderContext where
  ctx : RecipientContext
  encapsulated_key : Bytes
  deriving DecidableEq, Repr

/-- Modelled from the spec: `RecipientContext::new` (section 4.4); the
source body is an `unimplemented!()` stub.  KEM decapsulation, then the
identical key-schedule derivation; sub-step failures propagate unchanged. -/
def RecipientContext.new (P : Primitives) (recipientPrivKey enc info : Bytes) :
    Except HpkeError RecipientContext :=
  match decapsulate P recipientPrivKey enc info with
  | .error e => .error e
  | .ok ss => .ok ⟨keySchedule P ss info⟩

/-- Modelled from the spec: `RecipientContext::seal` (section 4.4); the
source body is an `unimplemented!()` stub.  Operates on the wrapped
key-schedule state. -/
def RecipientContext.seal (P : Primitives) (rc : RecipientContext) (pt aad : Bytes) :
    Except HpkeError Bytes × RecipientContext :=
  let r := KeySchedule.seal P rc.ctx pt aad
  (r.1, ⟨r.2⟩)

/-- Modelled from the spec: `RecipientContext::open` (section 4.4); the
source body is an `unimplemented!()` stub. -/
def RecipientContext.«open» (P : Primitives) (rc : RecipientContext) (ct aad : Bytes) :
    Except HpkeError Bytes × RecipientContext :=
  let r := KeySchedule.«open» P rc.ctx ct aad
  (r.1, ⟨r.2⟩)

/-- Modelled from the spec: `SenderContext::new` (section 4.4); the source
body is an `unimplemented!()` stub.  KEM encapsulation, then key-schedule
derivation; the produced encapsulated key is stored in the context. -/
def SenderContext.new (P : Primitives) (ephPriv recipientPubKey info : Bytes) :
    Except HpkeError SenderContext :=
  match encapsulate P ephPriv recipientPubKey info with
  | .error e => .error e
  | .ok (ss, enc) => .ok ⟨⟨keySchedule P ss info⟩, enc⟩

/-- `SenderContext::seal`: real source code — it delegates to the inner
context's seal (`self.ctx.seal(pt, aad)`). -/
def SenderContext.seal (P : Primitives) (s : SenderContext) (pt aad : Bytes) :
    Except HpkeError Bytes × SenderContext :=
  let r := RecipientContext.seal P s.ctx pt aad
  (r.1, ⟨r.2, s.encapsulated_key⟩)

/-- `SenderContext::encapsulated_key`: real source code — returns a shared
reference to the stored field.  The `&self` receiver means the call cannot
mutate the context; the model returns the field together with the
(unchanged) context. -/
def SenderContext.encapsulatedKeyCall (s : SenderContext) : Bytes × SenderContext :=
  (s.encapsulated_key, s)

/-! ## Binding layer (`bssl/src/lib.rs`, `bssl/src/hmac.rs`,
`bssl-crypto/src/pkey.rs`)

This is real source code.  Values returned by native calls are passed in as
explicit parameters; a panic is `Option.none`, a normal return is
`Option.some`. -/

/-- `PanicResultHandler for i32` (`bssl/src/lib.rs`):
`self.gt(&0).then_some(()).expect("allocation failed!")` — any return value
of zero or less panics. -/
def panic_if_error_i32 (r : Int) : Option Unit :=
  if 0 < r then some () else none

/-- `PanicResultHandler for *mut T` (`bssl/src/lib.rs`):
`self.is_null().not().then_some(()).expect("allocation failed!")` — a null
pointer panics.  The parameter records whether the native call returned
null. -/
def panic_if_error_ptr (isNull : Bool) : Option Unit :=
  if isNull then none else some ()

/-- `EVP_MAX_MD_BLOCK_SIZE`: the largest message-digest block size of the
native library (the SHA-512 block size, 128 bytes). -/
def EVP_MAX_MD_BLOCK_SIZE : Nat := 128

/-- `validate_key_len` (`bssl/src/hmac.rs`): false when the key length
exceeds `EVP_MAX_MD_BLOCK_SIZE`, true otherwise. -/
def validate_key_len (len : Nat) : Bool :=
  if len > EVP_MAX_MD_BLOCK_SIZE then false else true

/-- `InvalidLength` (`bssl/src/hmac.rs`): fieldless error struct returned
when the provided key material length is invalid. -/
inductive InvalidLength where
  | mk
  deriving DecidableEq, Repr

/-- `HmacImpl` (`bssl/src/hmac.rs`): holds a native `HMAC_CTX`; the model
records the key the context was initialised with. -/
structure HmacImpl where
  key : Bytes
  deriving DecidableEq, Repr

/-- `HmacImpl::new_from_slice` (`bssl/src/hmac.rs`).  The key length is
validated first; only when it is valid does the code call `HMAC_CTX_new`
(panicking on a null result) and `HMAC_Init_ex` (panicking on a
non-positive result).  `ctxNewNull` records whether `HMAC_CTX_new` returned
null and `initRes` records the `HMAC_Init_ex` return value. -/
def HmacImpl.new_from_slice (key : Bytes) (ctxNewNull : Bool) (initRes : Int) :
    Option (Except InvalidLength HmacImpl) :=
  if validate_key_len key.length then
    match panic_if_error_ptr ctxNewNull with
    | none => none
    | some _ =>
        match panic_if_error_i32 initRes with
        | none => none
        | some _ => some (.ok ⟨key⟩)
  else some (.error .mk)

/-- `hmac` one-shot (`bssl/src/hmac.rs`): calls the native `HMAC` (whose
computed digest is `native key data` and whose returned pointer is null iff
`retNull`, panicking via `panic_if_error`), then returns `Ok(buf)`
unconditionally — the `InvalidLength` arm of its result type is never
produced. -/
def hmac (native : Bytes → Bytes → Bytes) (retNull : Bool) (key data : Bytes) :
    Option (Except InvalidLength Bytes) :=
  match panic_if_error_ptr retNull with
  | none => none
  | some _ => some (.ok (native key data))

/-- `hmac_sha_256` (`bssl/src/hmac.rs`): `hmac::<32, Sha256>(key, data)`. -/
def hmac_sha_256 (native : Bytes → Bytes → Bytes) (retNull : Bool) (key data : Bytes) :
    Option (Except InvalidLength Bytes) :=
  hmac native retNull key data

/-- `hmac_sha_512` (`bssl/src/hmac.rs`): `hmac::<64, Sha512>(key, data)`. -/
def hmac_sha_512 (native : Bytes → Bytes → Bytes) (retNull : Bool) (key data : Bytes) :
    Option (Except InvalidLength Bytes) :=
  hmac native retNull key data

/-- `From<EcKey> for Pkey` (`bssl-crypto/src/pkey.rs`):
`assert!(!pkey.is_null())` after `EVP_PKEY_new`, then
`assert_eq!(result, 1)` after `EVP_PKEY_assign_EC_KEY`; both assertion
failures abort.  `pkeyNewNull` records whether `EVP_PKEY_new` returned
null and `assignRes` the `EVP_PKEY_assign_EC_KEY` return value. -/
def Pkey.from_ec_key (pkeyNewNull : Bool) (assignRes : Int) : Option Unit :=
  if pkeyNewNull then none
  else if assignRes = 1 then some () else none

/-- `PkeyCtx::diffie_hellman` (`bssl-crypto/src/pkey.rs`):
`assert_eq!(result, 1)` after `EVP_PKEY_derive_init` and
`EVP_PKEY_derive_set_peer`; then `EVP_PKEY_derive`'s return value is
matched — `0` becomes `Err("bssl_sys::EVP_PKEY_derive failed")`, `1`
becomes `Ok(())`, anything else panics. -/
def PkeyCtx.diffie_hellman (deriveInitRes setPeerRes deriveRes : Int) :
    Option (Except String Unit) :=
  if deriveInitRes = 1 then
    if setPeerRes = 1 then
      if deriveRes = 0 then some (.error "bssl_sys::EVP_PKEY_derive failed")
      else if deriveRes = 1 then some (.ok ())
      else none
    else none
  else none

/-! ## Concrete primitive bundles

Deterministic toy instantiations of the external collaborator interfaces,
in the sense of spec section 8 ("with a deterministic test KEM/KDF/AEAD
substituted for the real primitives").  They serve as concrete inputs for
the witness theorems. -/

/-- A deterministic toy primitive bundle: one-byte additive ECDH, constant
KDF, identity AEAD. -/
def tiny : Primitives where
  pubOf := fun a => [a.headD 0 % 251]
  ecdh := fun a b => some [(a.headD 0 + b.headD 0) % 251]
  kdfExtract := fun _ _ => [0]
  kdfExpand := fun _ _ len => List.replicate len 0
  aeadSeal := fun _ _ _ pt => pt
  aeadOpen := fun _ _ _ ct => some ct
  keyLen := 1
  nonceLen := 1
  encLen := 1

/-- A toy bundle whose AEAD rejects the ciphertext `[0]`, to exercise the
authentication-failure path. -/
def tinyAuth : Primitives where
  pubOf := fun a => [a.headD 0 % 251]
  ecdh := fun a b => some [(a.headD 0 + b.headD 0) % 251]
  kdfExtract := fun _ _ => [0]
  kdfExpand := fun _ _ len => List.replicate len 0
  aeadSeal := fun _ _ _ pt => pt
  aeadOpen := fun _ _ _ ct => if ct = [0] then none else some ct
  keyLen := 1
  nonceLen := 1
  encLen := 1

/-! ## Shared helper lemmas -/

/-- If the recipient's key pair matches and the Diffie-Hellman results
commute, decapsulating the encapsulated key reproduces the shared secret
derived during encapsulation. -/
theorem encap_decap_agree (P : Primitives) (ephPriv recipientPrivKey info : Bytes)
    (hdh : P.ecdh ephPriv (P.pubOf recipientPrivKey) =
           P.ecdh recipientPrivKey (P.pubOf ephPriv))
    (hlen : (P.pubOf ephPriv).length = P.encLen) :
    ∀ ss enc, encapsulate P ephPriv (P.pubOf recipientPrivKey) info = .ok (ss, enc) →
      decapsulate P recipientPrivKey enc info = .ok ss := by
  intro ss enc h
  cases hE : P.ecdh ephPriv (P.pubOf recipientPrivKey) with
  | none => simp [encapsulate, hE] at h
  | some dh =>
    simp only [encapsulate, hE] at h
    have hss : kemSharedSecret P
        (P.pubOf ephPriv ++ P.pubOf recipientPrivKey ++ dh) info = ss := by
      injection h with h'
      exact congrArg Prod.fst h'
    have henc : P.pubOf ephPriv = enc := by
      injection h with h'
      exact congrArg Prod.snd h'
    subst henc
    have hE' : P.ecdh recipientPrivKey (P.pubOf ephPriv) = some dh := hdh ▸ hE
    simp [decapsulate, hlen, hE', hss]
    rw [← List.append_assoc]
    exact hss

/-- Successful seal followed by open on the same key-schedule state returns
the original plaintext, provided the AEAD primitives invert each other. -/
theorem ks_seal_open_roundtrip (P : Primitives) (ks : KeySchedule) (pt aad : Bytes)
    (hseq : ks.seq < maxMessages P)
    (haead : ∀ k n a p, P.aeadOpen k n a (P.aeadSeal k n a p) = some p) :
    ∀ ct ks', KeySchedule.seal P ks pt aad = (.ok ct, ks') →
      (KeySchedule.«open» P ks ct aad).1 = .ok pt := by
  intro ct ks' h
  simp only [KeySchedule.seal, if_neg (Nat.not_le.mpr hseq)] at h
  have hct : P.aeadSeal ks.key (computeNonce P ks.base_nonce ks.seq) aad pt = ct := by
    have := congrArg Prod.fst h
    simpa using this
  simp [KeySchedule.«open», if_neg (Nat.not_le.mpr hseq), ← hct, haead]

/-! ## Claims -/

/-- **C2**: for every valid (params, recipient key pair, info), if
`encapsulate` returns `(shared_secret, encapsulated_key)`, then
`decapsulate` on the recipient private key and that encapsulated key
returns the same `shared_secret`.  Validity: the recipient public key
belongs to the private key, the ECDH results of the two sides agree
(Diffie-Hellman commutativity), and the ephemeral public key has the KEM's
encapsulated-key length. -/
theorem hpke_encap_decap_symmetry (P : Primitives)
    (ephPriv recipientPrivKey recipientPubKey info : Bytes)
    (hpk : recipientPubKey = P.pubOf recipientPrivKey)
    (hdh : P.ecdh ephPriv (P.pubOf recipientPrivKey) =
           P.ecdh recipientPrivKey (P.pubOf ephPriv))
    (hlen : (P.pubOf ephPriv).length = P.encLen) :
    ∀ ss enc, encapsulate P ephPriv recipientPubKey info = .ok (ss, enc) →
      decapsulate P recipientPrivKey enc info = .ok ss := by
  subst hpk
  exact encap_decap_agree P ephPriv recipientPrivKey info hdh hlen

/-- Witness for C2 at a concrete input over the `tiny` primitives. -/
theorem hpke_encap_decap_symmetry_witness :
    decapsulate tiny [5] [3] [7] = .ok [0] :=
  hpke_encap_decap_symmetry tiny [3] [5] [5] [7] (by decide) (by decide) (by decide)
    [0] [3] rfl

/-- **C1**: round-trip.  For valid `(params, recipient keypair, info)`, a
`RecipientContext` built from the matching `SenderContext`'s
`encapsulated_key` opens the ciphertext produced by that sender's seal back
to the original plaintext, for any `aad` and plaintext. -/
theorem hpke_seal_open_roundtrip (P : Primitives)
    (ephPriv recipientPrivKey recipientPubKey info pt aad : Bytes)
    (hpk : recipientPubKey = P.pubOf recipientPrivKey)
    (hdh : P.ecdh ephPriv (P.pubOf recipientPrivKey) =
           P.ecdh recipientPrivKey (P.pubOf ephPriv))
    (hlen : (P.pubOf ephPriv).length = P.encLen)
    (haead : ∀ k n a p, P.aeadOpen k n a (P.aeadSeal k n a p) = some p)
    (hmax : 0 < maxMessages P) :
    ∀ sctx ct sctx' rctx,
      SenderContext.new P ephPriv recipientPubKey info = .ok sctx →
      SenderContext.seal P sctx pt aad = (.ok ct, sctx') →
      RecipientContext.new P recipientPrivKey sctx.encapsulated_key info = .ok rctx →
      (RecipientContext.«open» P rctx ct aad).1 = .ok pt := by
  intro sctx ct sctx' rctx hnew hseal hrnew
  subst hpk
  cases hE : P.ecdh ephPriv (P.pubOf recipientPrivKey) with
  | none => simp [SenderContext.new, encapsulate, hE] at hnew
  | some dh =>
    simp only [SenderContext.new, encapsulate, hE] at hnew
    set ss := kemSharedSecret P
      (P.pubOf ephPriv ++ P.pubOf recipientPrivKey ++ dh) info with hssdef
    have hsctx : sctx = ⟨⟨keySchedule P ss info⟩, P.pubOf ephPriv⟩ := by
      injection hnew with h'
      exact h'.symm
    have hdecap : decapsulate P recipientPrivKey sctx.encapsulated_key info = .ok ss := by
      apply encap_decap_agree P ephPriv recipientPrivKey info hdh hlen
      rw [hsctx]
      simp [encapsulate, hE]
      rw [← List.append_assoc]
    have hrctx : rctx = ⟨keySchedule P ss info⟩ := by
      rw [RecipientContext.new, hdecap] at hrnew
      injection hrnew with h'
      exact h'.symm
    have hseq : (keySchedule P ss info).seq = 0 := rfl
    have hct : P.aeadSeal (keySchedule P ss info).key
        (computeNonce P (keySchedule P ss info).base_nonce 0) aad pt = ct := by
      rw [hsctx] at hseal
      simp only [SenderContext.seal, RecipientContext.seal, KeySchedule.seal,
        hseq, if_neg (Nat.not_le.mpr hmax)] at hseal
      have := congrArg Prod.fst hseal
      simpa using this
    rw [hrctx]
    simp only [RecipientContext.«open», KeySchedule.«open»,
      hseq, if_neg (Nat.not_le.mpr hmax), ← hct, haead]

/-- Witness for C1 at a concrete input over the `tiny` primitives. -/
theorem hpke_seal_open_roundtrip_witness :
    (RecipientContext.«open» tiny ⟨⟨[0], [0], 0⟩⟩ [1, 2] [9]).1 = .ok [1, 2] :=
  hpke_seal_open_roundtrip tiny [3] [5] [5] [7] [1, 2] [9]
    (by decide) (by decide) (by decide) (fun _ _ _ _ => rfl) (by decide)
    ⟨⟨⟨[0], [0], 0⟩⟩, [3]⟩ [1, 2] ⟨⟨⟨[0], [0], 1⟩⟩, [3]⟩ ⟨⟨[0], [0], 0⟩⟩
    rfl rfl rfl

/-- **C3**: in the Active state (counter below the AEAD limit), seal derives
the per-message nonce as `base_nonce XOR` the big-endian, zero-padded
sequence counter, invokes the AEAD seal primitive with the schedule key,
that nonce, the aad and the plaintext, and increments the counter by
exactly one (key and base nonce unchanged).  The trailing conjuncts record
that the encoded counter has exactly the AEAD's nonce width and decodes
back to the counter value. -/
theorem hpke_seal_nonce_derivation (P : Primitives) (c : KeySchedule) (pt aad : Bytes)
    (hseq : c.seq < maxMessages P) :
    KeySchedule.seal P c pt aad =
      (.ok (P.aeadSeal c.key (xorBytes c.base_nonce (beBytes P.nonceLen c.seq)) aad pt),
       { key := c.key, base_nonce := c.base_nonce, seq := c.seq + 1 }) ∧
    (beBytes P.nonceLen c.seq).length = P.nonceLen ∧
    beVal (beBytes P.nonceLen c.seq) = c.seq := by
  refine ⟨?_, beBytes_length _ _, ?_⟩
  · simp only [KeySchedule.seal, if_neg (Nat.not_le.mpr hseq), computeNonce]
  · rw [beVal_beBytes]
    apply Nat.mod_eq_of_lt
    have hpow : 0 < 256 ^ P.nonceLen := pow_pos (by norm_num) _
    unfold maxMessages at hseq
    omega

/-- Witness for C3 at a concrete input over the `tiny` primitives. -/
theorem hpke_seal_nonce_derivation_witness :
    KeySchedule.seal tiny ⟨[0], [0], 0⟩ [1] [2] =
      (.ok (tiny.aeadSeal [0] (xorBytes [0] (beBytes tiny.nonceLen 0)) [2] [1]),
       ⟨[0], [0], 1⟩) ∧
    (beBytes tiny.nonceLen 0).length = tiny.nonceLen ∧
    beVal (beBytes tiny.nonceLen 0) = 0 :=
  hpke_seal_nonce_derivation tiny ⟨[0], [0], 0⟩ [1] [2] (by decide)

/-- **C4**: once the counter has reached the AEAD's maximum safe message
count, every seal or open call returns `SequenceOverflow` with the state
unchanged — for arbitrary AEAD primitive functions, so the AEAD is never
invoked and no nonce is consumed — hence the exhausted state is terminal;
and the nonces derived for distinct counter values below the limit are all
distinct. -/
theorem hpke_sequence_overflow_terminal (P : Primitives) (c : KeySchedule)
    (h : maxMessages P ≤ c.seq) :
    (∀ pt aad f, RecipientContext.seal { P with aeadSeal := f } ⟨c⟩ pt aad =
        (.error .sequenceOverflow, ⟨c⟩)) ∧
    (∀ ct aad g, RecipientContext.«open» { P with aeadOpen := g } ⟨c⟩ ct aad =
        (.error .sequenceOverflow, ⟨c⟩)) ∧
    (∀ ek pt aad f, SenderContext.seal { P with aeadSeal := f } ⟨⟨c⟩, ek⟩ pt aad =
        (.error .sequenceOverflow, ⟨⟨c⟩, ek⟩)) ∧
    (∀ bn i j, bn.length = P.nonceLen → i < j → j < maxMessages P →
      computeNonce P bn i ≠ computeNonce P bn j) := by
  refine ⟨?_, ?_, ?_, ?_⟩
  · intro pt aad f
    have h' : maxMessages { P with aeadSeal := f } ≤ c.seq := h
    simp [RecipientContext.seal, KeySchedule.seal, h']
  · intro ct aad g
    have h' : maxMessages { P with aeadOpen := g } ≤ c.seq := h
    simp [RecipientContext.«open», KeySchedule.«open», h']
  · intro ek pt aad f
    have h' : maxMessages { P with aeadSeal := f } ≤ c.seq := h
    simp [SenderContext.seal, RecipientContext.seal, KeySchedule.seal, h']
  · intro bn i j hbn hij hj hEq
    have hpow : 0 < 256 ^ P.nonceLen := pow_pos (by norm_num) _
    unfold maxMessages at hj
    have hx := xorBytes_inj bn (beBytes P.nonceLen i) (beBytes P.nonceLen j)
      (by rw [beBytes_length, hbn]) (by rw [beBytes_length, hbn]) hEq
    have : i = j := beBytes_injOn P.nonceLen i j (by omega) (by omega) hx
    omega

/-- Witness for C4 at a concrete exhausted context over the `tiny`
primitives. -/
theorem hpke_sequence_overflow_terminal_witness :
    RecipientContext.seal { tiny with aeadSeal := fun _ _ _ _ => [9] }
        ⟨⟨[0], [0], 255⟩⟩ [1] [2] = (.error .sequenceOverflow, ⟨⟨[0], [0], 255⟩⟩) ∧
    computeNonce tiny [0] 0 ≠ computeNonce tiny [0] 1 := by
  have H := hpke_sequence_overflow_terminal tiny ⟨[0], [0], 255⟩ (by decide)
  exact ⟨H.1 [1] [2] _, H.2.2.2 [0] 0 1 rfl (by decide) (by decide)⟩

/-- **C5**: when the AEAD authentication check fails, open returns
`OpenFailure`, the context (in particular its sequence counter) is exactly
the one from before the call, and no plaintext is produced. -/
theorem hpke_open_auth_failure_frame (P : Primitives) (c : KeySchedule) (ct aad : Bytes)
    (hseq : c.seq < maxMessages P)
    (hauth : P.aeadOpen c.key (computeNonce P c.base_nonce c.seq) aad ct = none) :
    RecipientContext.«open» P ⟨c⟩ ct aad = (.error .openFailure, ⟨c⟩) := by
  simp [RecipientContext.«open», KeySchedule.«open», if_neg (Nat.not_le.mpr hseq), hauth]

/-- Witness for C5 over the `tinyAuth` primitives, whose AEAD rejects the
ciphertext `[0]`. -/
theorem hpke_open_auth_failure_frame_witness :
    RecipientContext.«open» tinyAuth ⟨⟨[0], [0], 0⟩⟩ [0] [4] =
      (.error .openFailure, ⟨⟨[0], [0], 0⟩⟩) :=
  hpke_open_auth_failure_frame tinyAuth ⟨[0], [0], 0⟩ [0] [4] (by decide) (by decide)

/-- **C6**: `Params::new` succeeds exactly when each of the three 16-bit
identifiers maps to a supported concrete algorithm, fails with
`UnsupportedAlgorithm` otherwise (and is pure by construction); no later
operation — context construction, seal, or open — can produce
`UnsupportedAlgorithm`. -/
theorem hpke_params_new_validation (kem kdf aead : Nat)
    (_hk : kem < 65536) (_hd : kdf < 65536) (_ha : aead < 65536) :
    ((∃ p, Params.new kem kdf aead = .ok p) ↔
      (kem = KEM_X25519_HKDF_SHA256 ∧ kdf = KDF_HKDF_SHA256 ∧
        aead = AEAD_AES_128_GCM)) ∧
    (¬(kem = KEM_X25519_HKDF_SHA256 ∧ kdf = KDF_HKDF_SHA256 ∧
        aead = AEAD_AES_128_GCM) →
      Params.new kem kdf aead = .error .unsupportedAlgorithm) ∧
    (∀ P c pt aad, (KeySchedule.seal P c pt aad).1 ≠ .error .unsupportedAlgorithm) ∧
    (∀ P c ct aad, (KeySchedule.«open» P c ct aad).1 ≠ .error .unsupportedAlgorithm) ∧
    (∀ P e r i, SenderContext.new P e r i ≠ .error .unsupportedAlgorithm) ∧
    (∀ P r e i, RecipientContext.new P r e i ≠ .error .unsupportedAlgorithm) := by
  refine ⟨?_, ?_, ?_, ?_, ?_, ?_⟩
  · by_cases hc : kem = KEM_X25519_HKDF_SHA256 ∧ kdf = KDF_HKDF_SHA256 ∧
        aead = AEAD_AES_128_GCM
    · simp [Params.new, hc]
    · simp [Params.new, hc]
  · intro hc
    simp [Params.new, hc]
  · intro P c pt aad
    by_cases hc : maxMessages P ≤ c.seq
    · simp [KeySchedule.seal, hc]
    · simp [KeySchedule.seal, hc]
  · intro P c ct aad
    by_cases hc : maxMessages P ≤ c.seq
    · simp [KeySchedule.«open», hc]
    · cases hA : P.aeadOpen c.key (computeNonce P c.base_nonce c.seq) aad ct <;>
        simp [KeySchedule.«open», hc, hA]
  · intro P e r i
    cases hE : P.ecdh e r <;> simp [SenderContext.new, encapsulate, hE]
  · intro P r e i
    by_cases hl : e.length ≠ P.encLen
    · simp [RecipientContext.new, decapsulate, hl]
    · cases hE : P.ecdh r e <;> simp [RecipientContext.new, decapsulate, hl, hE]

/-- Witness for C6: the one supported triple succeeds, a perturbed KEM id
fails with `UnsupportedAlgorithm`. -/
theorem hpke_params_new_validation_witness :
    (∃ p, Params.new 32 1 1 = .ok p) ∧
    Params.new 33 1 1 = .error .unsupportedAlgorithm := by
  constructor
  · exact (hpke_params_new_validation 32 1 1 (by decide) (by decide) (by decide)).1.mpr
      (by decide)
  · exact (hpke_params_new_validation 33 1 1 (by decide) (by decide) (by decide)).2.1
      (by decide)

/-- **C8**: `encapsulated_key()` returns the byte string the KEM produced
during `SenderContext::new`, the call leaves the context unchanged (its
`&self` receiver cannot mutate any field), and repeated calls return the
same byte string. -/
theorem sender_encapsulated_key_immutable (P : Primitives)
    (ephPriv recipientPubKey info : Bytes) (s : SenderContext)
    (h : SenderContext.new P ephPriv recipientPubKey info = .ok s) :
    s.encapsulatedKeyCall = (P.pubOf ephPriv, s) ∧
    (∃ ss, encapsulate P ephPriv recipientPubKey info = .ok (ss, s.encapsulated_key)) ∧
    (s.encapsulatedKeyCall.2).encapsulatedKeyCall.1 = s.encapsulatedKeyCall.1 := by
  cases hE : P.ecdh ephPriv recipientPubKey with
  | none => simp [SenderContext.new, encapsulate, hE] at h
  | some dh =>
    simp only [SenderContext.new, encapsulate, hE] at h
    have hs : s = ⟨⟨keySchedule P (kemSharedSecret P
        (P.pubOf ephPriv ++ recipientPubKey ++ dh) info) info⟩, P.pubOf ephPriv⟩ := by
      injection h with h'
      exact h'.symm
    subst hs
    exact ⟨rfl, ⟨kemSharedSecret P (P.pubOf ephPriv ++ recipientPubKey ++ dh) info,
      by simp [encapsulate, hE]⟩, rfl⟩

/-- Witness for C8 at a concrete sender context over the `tiny`
primitives. -/
theorem sender_encapsulated_key_immutable_witness :
    SenderContext.encapsulatedKeyCall ⟨⟨⟨[0], [0], 0⟩⟩, [3]⟩ =
      ([3], ⟨⟨⟨[0], [0], 0⟩⟩, [3]⟩) :=
  (sender_encapsulated_key_immutable tiny [3] [5] [7] ⟨⟨⟨[0], [0], 0⟩⟩, [3]⟩ rfl).1

/-- Counterexample to **C7** as stated: `PkeyCtx::diffie_hellman` is a
`Result`-typed binding function in which the native `EVP_PKEY_derive` call
returning the non-positive value `0` is surfaced to the caller as a typed
`Err`, not a panic. -/
theorem pkey_derive_zero_surfaces_err :
    PkeyCtx.diffie_hellman 1 1 0 =
      some (.error "bssl_sys::EVP_PKEY_derive failed") ∧
    PkeyCtx.diffie_hellman 1 1 0 ≠ none := by
  constructor
  · rfl
  · intro h
    simp [PkeyCtx.diffie_hellman] at h

/-- **C7 (amended)**: every allocation-failure signal checked through
`PanicResultHandler` or an assertion panics instead of producing a typed
error — non-positive `i32` results, null pointers, `HMAC_CTX_new` /
`HMAC_Init_ex` failures inside `HmacImpl::new_from_slice` (once the key
length is valid), `EVP_PKEY_new` / `EVP_PKEY_assign_EC_KEY` failures in
`From<EcKey> for Pkey`, and `EVP_PKEY_derive_init` /
`EVP_PKEY_derive_set_peer` results other than 1 as well as negative (or
greater-than-1) `EVP_PKEY_derive` results in `PkeyCtx::diffie_hellman` —
with the single exception that `EVP_PKEY_derive` returning exactly 0 is
surfaced as a `Result` `Err`. -/
theorem binding_alloc_failure_panics :
    (∀ r : Int, r ≤ 0 → panic_if_error_i32 r = none) ∧
    panic_if_error_ptr true = none ∧
    (∀ key initRes, key.length ≤ EVP_MAX_MD_BLOCK_SIZE →
      HmacImpl.new_from_slice key true initRes = none) ∧
    (∀ key initRes, key.length ≤ EVP_MAX_MD_BLOCK_SIZE → initRes ≤ 0 →
      HmacImpl.new_from_slice key false initRes = none) ∧
    (∀ assignRes, Pkey.from_ec_key true assignRes = none) ∧
    (∀ assignRes, assignRes ≠ 1 → Pkey.from_ec_key false assignRes = none) ∧
    (∀ i s d : Int, i ≠ 1 → PkeyCtx.diffie_hellman i s d = none) ∧
    (∀ s d : Int, s ≠ 1 → PkeyCtx.diffie_hellman 1 s d = none) ∧
    (∀ d : Int, d ≠ 0 → d ≠ 1 → PkeyCtx.diffie_hellman 1 1 d = none) ∧
    PkeyCtx.diffie_hellman 1 1 0 =
      some (.error "bssl_sys::EVP_PKEY_derive failed") := by
  refine ⟨?_, rfl, ?_, ?_, ?_, ?_, ?_, ?_, ?_, rfl⟩
  · intro r hr
    simp [panic_if_error_i32, Int.not_lt.mpr hr]
  · intro key initRes hlen
    simp [HmacImpl.new_from_slice, validate_key_len, Nat.not_lt.mpr hlen,
      panic_if_error_ptr]
  · intro key initRes hlen hres
    simp [HmacImpl.new_from_slice, validate_key_len, Nat.not_lt.mpr hlen,
      panic_if_error_ptr, panic_if_error_i32, Int.not_lt.mpr hres]
  · intro assignRes
    simp [Pkey.from_ec_key]
  · intro assignRes hres
    simp [Pkey.from_ec_key, hres]
  · intro i s d hi
    simp [PkeyCtx.diffie_hellman, hi]
  · intro s d hs
    simp [PkeyCtx.diffie_hellman, hs]
  · intro d h0 h1
    simp [PkeyCtx.diffie_hellman, h0, h1]

/-- Witness for the amended C7 at concrete native return values. -/
theorem binding_alloc_failure_panics_witness :
    panic_if_error_i32 0 = none ∧
    HmacImpl.new_from_slice [1, 2] false 0 = none ∧
    Pkey.from_ec_key false 0 = none ∧
    PkeyCtx.diffie_hellman 1 1 (-1) = none := by
  refine ⟨?_, ?_, ?_, ?_⟩
  · exact binding_alloc_failure_panics.1 0 (by decide)
  · exact binding_alloc_failure_panics.2.2.2.1 [1, 2] 0 (by decide) (by decide)
  · exact binding_alloc_failure_panics.2.2.2.2.2.1 0 (by decide)
  · exact binding_alloc_failure_panics.2.2.2.2.2.2.2.2.1 (-1) (by decide) (by decide)

/-- **C10**: the one-shot `hmac_sha_256` and `hmac_sha_512` never return the
`InvalidLength` error their result type advertises — whenever they return
at all, the result is `Ok` — even for key lengths above
`EVP_MAX_MD_BLOCK_SIZE`, for which the incremental constructor
`HmacImpl::new_from_slice` does fail with `InvalidLength`. -/
theorem hmac_oneshot_never_invalid_length :
    (∀ native retNull key data r,
      hmac_sha_256 native retNull key data = some r → ∃ out, r = .ok out) ∧
    (∀ native retNull key data r,
      hmac_sha_512 native retNull key data = some r → ∃ out, r = .ok out) ∧
    (∀ key ctxNewNull initRes, EVP_MAX_MD_BLOCK_SIZE < key.length →
      HmacImpl.new_from_slice key ctxNewNull initRes = some (.error .mk)) := by
  refine ⟨?_, ?_, ?_⟩
  · intro native retNull key data r h
    cases retNull with
    | true => simp [hmac_sha_256, hmac, panic_if_error_ptr] at h
    | false =>
      refine ⟨native key data, ?_⟩
      simp only [hmac_sha_256, hmac, panic_if_error_ptr, if_neg Bool.false_ne_true] at h
      injection h with h'
      exact h'.symm
  · intro native retNull key data r h
    cases retNull with
    | true => simp [hmac_sha_512, hmac, panic_if_error_ptr] at h
    | false =>
      refine ⟨native key data, ?_⟩
      simp only [hmac_sha_512, hmac, panic_if_error_ptr, if_neg Bool.false_ne_true] at h
      injection h with h'
      exact h'.symm
  · intro key ctxNewNull initRes hlen
    simp [HmacImpl.new_from_slice, validate_key_len, hlen]

/-- Witness for C10: a 129-byte key makes the incremental constructor fail
with `InvalidLength`, while the one-shot result on the same inputs is
`Ok`. -/
theorem hmac_oneshot_never_invalid_length_witness :
    HmacImpl.new_from_slice (List.replicate 129 7) false 1 = some (.error .mk) ∧
    (∃ out, (Except.ok [9] : Except InvalidLength Bytes) = .ok out) := by
  constructor
  · exact hmac_oneshot_never_invalid_length.2.2 (List.replicate 129 7) false 1
      (by simp [EVP_MAX_MD_BLOCK_SIZE])
  · exact hmac_oneshot_never_invalid_length.1 (fun _ _ => [9]) false
      (List.replicate 129 7) [4] (.ok [9]) rfl
